import Mathlib

/-!
Verification of the game-save backup manager's backup catalog engine and
interaction state machine.

The development shallowly embeds the Go sources:
  * `internal/backup` (the catalog store: `CreateBackup`, `RestoreBackup`,
    `DeleteBackups`, backed by a sqlite table) over an explicit model of the
    filesystem (an association list from paths to file contents) and of the
    database table (a list of rows plus the next auto-increment id);
  * `internal/state` (the `StateManager`);
  * `internal/ui` controller (`Controller.Update`, `handleGlobalMessages`,
    `handleDeleteConfirmationView`) and `internal/views`
    (`MainMenuHandler.handleDeleteBackups`).

Fallible external steps that the Go code observes only through an `error`
result (a sqlite `DELETE` failing inside a transaction) are modelled by a
boolean oracle passed to the operation.
-/

/-! ### Decimal formatting (the model of Go's `%d` / `%02d` / `%04d` verbs) -/

/-- Digits of `n` in base 10, least significant first, computed with
structural fuel so that it reduces by evaluation.  `natDigitsAux (n+1) n`
always has enough fuel. -/
def natDigitsAux : Nat → Nat → List Nat
  | 0, _ => []
  | fuel + 1, n => if n < 10 then [n] else (n % 10) :: natDigitsAux fuel (n / 10)

/-- Digits of `n` in base 10, least significant first. -/
def natDigits (n : Nat) : List Nat := natDigitsAux (n + 1) n

/-- Value of a least-significant-first digit list. -/
def fromDigits : List Nat → Nat
  | [] => 0
  | d :: ds => d + 10 * fromDigits ds

/-- ASCII digit character for a single decimal digit. -/
def decChar (d : Nat) : Char := Char.ofNat (48 + d)

/-- Decimal string for `n`, most significant digit first: the model of the
`%d` formatting verb used by `fmt.Sprintf("%s_%d", baseName, counter)`. -/
def natToDec (n : Nat) : String := String.mk ((natDigits n).reverse.map decChar)

/-- Zero-padded two-digit field, as produced by the `01`, `02`, `15`, `04`,
`05` components of the Go time layout. -/
def pad2 (n : Nat) : String := if n < 10 then "0" ++ natToDec n else natToDec n

/-- Zero-padded four-digit field, as produced by the `2006` component of the
Go time layout. -/
def pad4 (n : Nat) : String :=
  if n < 10 then "000" ++ natToDec n
  else if n < 100 then "00" ++ natToDec n
  else if n < 1000 then "0" ++ natToDec n
  else natToDec n

/-! ### Timestamps -/

/-- A wall-clock timestamp (the model of Go's `time.Time`, at the granularity
the program uses). -/
structure DateTime where
  year : Nat
  month : Nat
  day : Nat
  hour : Nat
  minute : Nat
  second : Nat
deriving DecidableEq, Repr

/-- Model of `t.Format("2006-01-02_15-04-05")`. -/
def formatTS (t : DateTime) : String :=
  pad4 t.year ++ "-" ++ pad2 t.month ++ "-" ++ pad2 t.day ++ "_" ++
    pad2 t.hour ++ "-" ++ pad2 t.minute ++ "-" ++ pad2 t.second

/-! ### Filesystem model

An association list from absolute paths to file contents.  A write prepends
(shadowing any older entry, i.e. overwriting), a removal drops every entry at
the path. -/

/-- Filesystem: path ↦ content association list. -/
abbrev FS : Type := List (String × String)

/-- Content of the file at `p`, if it exists (model of `os.ReadFile` /
`os.Stat` success). -/
def fsGet (fs : FS) (p : String) : Option String :=
  (List.find? (fun e => e.1 = p) fs).map (fun e => e.2)

/-- Whether a file exists at `p`. -/
def fsHas (fs : FS) (p : String) : Bool := (fsGet fs p).isSome

/-- Model of `os.WriteFile p v`: create or overwrite. -/
def fsWrite (fs : FS) (p v : String) : FS := (p, v) :: fs

/-- Model of a successful `os.Remove p`. -/
def fsRemove (fs : FS) (p : String) : FS :=
  List.filter (fun e => ¬ e.1 = p) fs

/-- Model of `filepath.Join dir name` on a Unix path. -/
def joinPath (dir name : String) : String := dir ++ "/" ++ name

/-! ### Backup records and the database table -/

/-- A row of the `backups` table / the `backup.Backup` struct. -/
structure Backup where
  id : Nat
  name : String
  path : String
  createdAt : DateTime
deriving DecidableEq, Repr

/-- The `backups` table: its rows and the next auto-increment id. -/
structure DbState where
  rows : List Backup
  nextId : Nat
deriving DecidableEq, Repr

/-! ### `DB.CreateBackup`

Embeds `internal/backup`'s

```
func (db *DB) CreateBackup(savePath, backupDir, backupName string) error
```

The collision loop tries the candidate names `base`, `base_1`, `base_2`, …
(`counter` starts at `1` in the Go code, and the first candidate is the bare
name).  The loop is modelled by `resolveIdx`, which walks the same candidate
sequence by index and is run with fuel `fs.length + 1`: the candidates are
pairwise distinct paths (proved below), so among the first `fs.length + 1` of
them at least one is unused and the fuel is never exhausted. -/

/-- The `n`-th candidate name: `base` for `n = 0`, else `base_n`. -/
def candName (base : String) : Nat → String
  | 0 => base
  | Nat.succ k => base ++ "_" ++ natToDec (k + 1)

/-- The on-disk path of the `n`-th candidate: `backupDir/<candName>.sav`. -/
def candPath (dir base : String) (n : Nat) : String :=
  joinPath dir (candName base n ++ ".sav")

/-- The collision loop of `CreateBackup`: starting from candidate `n`, walk
forward until a candidate path does not exist, and return that candidate's
index. -/
def resolveIdx (fs : FS) (dir base : String) : Nat → Nat → Nat
  | 0, n => n
  | fuel + 1, n =>
    if fsHas fs (candPath dir base n) then resolveIdx fs dir base fuel (n + 1)
    else n

/-- The resolved (collision-free) backup name actually used. -/
def resolveName (fs : FS) (dir base : String) : String :=
  candName base (resolveIdx fs dir base (fs.length + 1) 0)

/-- Result of a catalog-engine operation: the filesystem and table
afterwards, plus the returned `error` (if any). -/
structure OpResult where
  fs : FS
  db : DbState
  err : Option String
deriving DecidableEq, Repr

/-- Model of `DB.CreateBackup savePath backupDir backupName` run at wall
clock `now`.  (The Go code calls `time.Now()` twice, for the synthesized
name and for `created_at`; both are modelled by the single `now`.) -/
def CreateBackup (now : DateTime) (savePath backupDir backupName : String)
    (fs : FS) (db : DbState) : OpResult :=
  match fsGet fs savePath with
  | none => ⟨fs, db, some ("save file not found: " ++ savePath)⟩
  | some data =>
    let base := if backupName = "" then "Backup_" ++ formatTS now else backupName
    let name := resolveName fs backupDir base
    let path := joinPath backupDir (name ++ ".sav")
    ⟨fsWrite fs path data,
     ⟨db.rows ++ [⟨db.nextId, name, path, now⟩], db.nextId + 1⟩,
     none⟩

/-! ### `DB.RestoreBackup` -/

/-- Model of `DB.RestoreBackup b savePath`: read the backup file and write it
over the save file. -/
def RestoreBackup (b : Backup) (savePath : String) (fs : FS) :
    FS × Option String :=
  match fsGet fs b.path with
  | none => (fs, some ("read backup file failed: " ++ b.path))
  | some data => (fsWrite fs savePath data, none)

/-! ### `DB.DeleteBackups`

Embeds

```
func (db *DB) DeleteBackups(backups []Backup) error {
    tx, err := db.Begin()
    ...
    defer tx.Rollback()
    for _, b := range backups {
        if err := os.Remove(b.Path); err != nil { continue }
        _, err := tx.Exec("DELETE FROM backups WHERE id = ?", b.ID)
        if err != nil { return err }
    }
    return tx.Commit()
}
```

`os.Remove` fails exactly when the path does not exist in the filesystem
model.  A failure of `tx.Exec` is injected through the oracle `execFails`
(indexed by the row id); on such a failure the deferred `tx.Rollback()`
restores every row, while file removals already performed stand. -/

/-- Outcome of `DeleteBackups`: filesystem, surviving rows, and whether an
error was returned. -/
structure DelResult where
  fs : FS
  rows : List Backup
  err : Bool
deriving Repr

/-- Delete a row by id (the effect of `DELETE FROM backups WHERE id = ?`
inside the transaction). -/
def removeRow (rows : List Backup) (id : Nat) : List Backup :=
  List.filter (fun b => ¬ b.id = id) rows

/-- The loop body of `DeleteBackups`.  `origRows` are the rows at
transaction start, restored on rollback. -/
def deleteBackupsGo (execFails : Nat → Bool) (origRows : List Backup) :
    FS → List Backup → List Backup → DelResult
  | fs, txRows, [] => ⟨fs, txRows, false⟩
  | fs, txRows, b :: rest =>
    if fsHas fs b.path then
      let fs' := fsRemove fs b.path
      if execFails b.id then ⟨fs', origRows, true⟩
      else deleteBackupsGo execFails origRows fs' (removeRow txRows b.id) rest
    else
      deleteBackupsGo execFails origRows fs txRows rest

/-- Model of `DB.DeleteBackups`. -/
def DeleteBackups (execFails : Nat → Bool) (fs : FS) (db : DbState)
    (backups : List Backup) : DelResult :=
  deleteBackupsGo execFails db.rows fs db.rows backups

/-! ### `Application.RestoreSelectedBackupWithAutoBackup`

Embeds `internal/app/application.go` lines 313–337, given the backup record
the list selection denotes (the list-widget mechanics that produce it are
presentation-layer and are not modelled):

```
if app.config.AutoBackup {
    autoBackupName := fmt.Sprintf("Backup_%s", time.Now().Format("2006-01-02_15-04-05"))
    if err := app.backupService.CreateBackup(autoBackupName); err != nil {
        return fmt.Errorf("failed to create auto-backup: %v", err)
    }
}
return app.backupService.RestoreBackup(backupToRestore)
```
-/

/-- Model of `RestoreSelectedBackupWithAutoBackup` for the selected backup
`b`. -/
def RestoreSelectedBackupWithAutoBackup (now : DateTime)
    (savePath backupDir : String) (autoBackup : Bool) (b : Backup)
    (fs : FS) (db : DbState) : OpResult :=
  if autoBackup then
    let autoName := "Backup_" ++ formatTS now
    let r := CreateBackup now savePath backupDir autoName fs db
    match r.err with
    | some e => ⟨fs, db, some ("failed to create auto-backup: " ++ e)⟩
    | none =>
      let res := RestoreBackup b savePath r.fs
      ⟨res.1, r.db, res.2⟩
  else
    let res := RestoreBackup b savePath fs
    ⟨res.1, db, res.2⟩

/-! ### The state manager (`internal/state`) -/

/-- The `ViewState` enumeration. -/
inductive ViewState
  | InitializingView
  | MainMenuView
  | BackupListView
  | ViewBackupsView
  | CreateBackupView
  | RestoreConfirmationView
  | DeleteConfirmationView
  | DeletingView
  | SettingsView
  | ChangeSavePathView
  | ChangeBackupDirView
  | FirstRunView
  | FirstRunBackupDirView
deriving DecidableEq, Repr

open ViewState

/-- The `StateManager` struct: current and previous view state. -/
structure StateManager where
  current : ViewState
  previous : ViewState
deriving DecidableEq, Repr

/-- Model of `StateManager.TransitionTo`. -/
def TransitionTo (sm : StateManager) (newState : ViewState) : StateManager :=
  ⟨newState, sm.current⟩

/-- Model of `StateManager.CanTransitionTo` (the Go body is
`return true`). -/
def CanTransitionTo (_ : StateManager) (_ : ViewState) : Bool := true

/-! ### The UI controller (`internal/ui` Controller and `internal/views`)

The controller state is modelled at the granularity the verified claims
need: the state manager, the error and notification slots, the
selection set (`selected`, the Go `map[int]struct{}` as a list of indices),
the displayed list items and cursor, and the window dimensions.  Styling,
text-input internals and list-widget rendering are presentation-layer and
are not part of the state. -/

/-- Controller-visible application state (`app.Application`). -/
structure CtrlState where
  sm : StateManager
  err : Option String
  notification : Option String
  selected : List Nat
  items : List Backup
  listIndex : Nat
  width : Nat
  height : Nat
deriving Repr

/-- `Application.TransitionToState` (delegates to the state manager). -/
def transitionToState (s : CtrlState) (ns : ViewState) : CtrlState :=
  { s with sm := TransitionTo s.sm ns }

/-- The messages `Controller.Update` dispatches on. -/
inductive Msg
  | key (k : String)
  | windowSize (w h : Nat)
  | clearNotificationMsg
  | databaseInitializedMsg
  | errMsg (e : String)
deriving DecidableEq, Repr

/-- A catalog operation performed by a routed view handler (used to state
that no catalog operation happens in the error state). -/
inductive Effect
  | catalogOp (description : String)
deriving DecidableEq, Repr

/-- Model of `Controller.shouldAllowQuitToMainMenu`. -/
def shouldAllowQuitToMainMenu (s : CtrlState) : Bool :=
  s.sm.current ≠ FirstRunView && s.sm.current ≠ MainMenuView

/-- Model of `Controller.handleGlobalMessages`.  The returned flag is
whether the handler returned a non-nil command, which in the Go code
happens exactly for the quit command `tea.Quit` on ctrl+c. -/
def handleGlobalMessages (s : CtrlState) (m : Msg) : CtrlState × Bool :=
  match m with
  | Msg.windowSize w h => ({ s with width := w, height := h }, false)
  | Msg.key k =>
    if k = "ctrl+c" then (s, true)
    else if shouldAllowQuitToMainMenu s ∧ k = "q" then
      ({ transitionToState s MainMenuView with notification := none }, false)
    else (s, false)
  | Msg.clearNotificationMsg => ({ s with notification := none }, false)
  | Msg.databaseInitializedMsg => (transitionToState s MainMenuView, false)
  | Msg.errMsg e => ({ s with err := some e }, false)

/-- Result of one `Controller.Update` step. -/
structure UpdResult where
  st : CtrlState
  quit : Bool
  effects : List Effect
deriving Repr

/-- Model of `Controller.Update`.  `route` stands for the per-view handlers
(`mainMenuHandler.Update` and `handleOtherViews`), which run only when no
error is set; the theorems about the error state quantify over every
possible `route`. -/
def controllerUpdate (route : ViewState → Msg → CtrlState → CtrlState × List Effect)
    (s : CtrlState) (m : Msg) : UpdResult :=
  let g := handleGlobalMessages s m
  if g.2 then ⟨g.1, true, []⟩
  else if g.1.err.isSome then
    match m with
    | Msg.key k => if k = "ctrl+c" then ⟨g.1, true, []⟩ else ⟨g.1, false, []⟩
    | _ => ⟨g.1, false, []⟩
  else
    match g.1.sm.current with
    | InitializingView => ⟨g.1, false, []⟩
    | st =>
      let r := route st m g.1
      ⟨r.1, false, r.2⟩

/-! ### Entries into the `DeletingView` state

`MainMenuHandler.handleDeleteBackups` (internal/views, main-menu key "4")
and the decline branch of `Controller.handleDeleteConfirmationView`
(internal/ui, keys "n"/"N"/"q").  `fetch` stands for the outcome of
`RefreshBackupList`'s catalog read (`GetBackupItems`); on a fetch error the
Go code leaves the items unchanged and emits the error as a command. -/

/-- Model of `MainMenuHandler.handleDeleteBackups`: transition to
`DeletingView`, clear the selection set, refresh the list, reset the
cursor.  Returns the new state and the error the refresh command would
emit, if any. -/
def handleDeleteBackups (fetch : Except String (List Backup))
    (s : CtrlState) : CtrlState × Option String :=
  let s1 := { transitionToState s DeletingView with selected := [] }
  match fetch with
  | Except.error e => ({ s1 with listIndex := 0 }, some e)
  | Except.ok its => ({ s1 with items := its, listIndex := 0 }, none)

/-- Model of `Controller.handleDeleteConfirmationView` on a key press.
`deleteRes` stands for the outcome of `Application.DeleteSelectedBackups`.
Deletion keys: "y"/"Y" confirm (the catalog multi-delete runs), "n"/"N"/"q"
decline (transition back to `DeletingView`, selection set untouched). -/
def handleDeleteConfirmationView (deleteRes : Except String Unit)
    (k : String) (s : CtrlState) : CtrlState × List Effect :=
  if k = "y" ∨ k = "Y" then
    match deleteRes with
    | Except.error e =>
      ({ s with err := some ("failed to delete backups: " ++ e) },
       [Effect.catalogOp "DeleteBackups"])
    | Except.ok _ =>
      (transitionToState
        { s with notification := some "Deleted backup(s)" } MainMenuView,
       [Effect.catalogOp "DeleteBackups"])
  else if k = "n" ∨ k = "N" ∨ k = "q" then
    (transitionToState s DeletingView, [])
  else (s, [])

/-! ### Iterated backup creation (for the uniqueness property) -/

/-- `k` successive `CreateBackup` calls with one fixed name against the same
configuration, each seeing the filesystem and catalog left by the previous
one; call `i` runs at wall clock `times i`. -/
def iterCreate (times : Nat → DateTime) (savePath backupDir backupName : String)
    (fs : FS) (db : DbState) : Nat → OpResult
  | 0 => ⟨fs, db, none⟩
  | k + 1 =>
    let r := iterCreate times savePath backupDir backupName fs db k
    CreateBackup (times k) savePath backupDir backupName r.fs r.db

/-! ## Basic filesystem lemmas -/

theorem fsGet_fsWrite_self (fs : FS) (p v : String) :
    fsGet (fsWrite fs p v) p = some v := by
  simp [fsGet, fsWrite, List.find?_cons]

theorem fsGet_fsWrite_ne (fs : FS) (p v q : String) (h : q ≠ p) :
    fsGet (fsWrite fs p v) q = fsGet fs q := by
  have hd : (decide (p = q)) = false := decide_eq_false (fun he => h he.symm)
  simp [fsGet, fsWrite, List.find?_cons, hd]

theorem fsHas_of_fsHas_fsRemove (fs : FS) (p q : String)
    (h : fsHas (fsRemove fs q) p = true) : fsHas fs p = true := by
  simp only [fsHas, fsGet, Option.isSome_map', List.find?_isSome] at h ⊢
  obtain ⟨e, he, hd⟩ := h
  exact ⟨e, List.mem_of_mem_filter he, hd⟩

theorem fsHas_iff_exists (fs : FS) (p : String) :
    fsHas fs p = true ↔ ∃ v, (p, v) ∈ fs := by
  simp only [fsHas, fsGet, Option.isSome_map', List.find?_isSome]
  constructor
  · rintro ⟨⟨a, v⟩, hm, hd⟩
    simp only [decide_eq_true_eq] at hd
    exact ⟨v, hd ▸ hm⟩
  · rintro ⟨v, hv⟩
    exact ⟨(p, v), hv, by simp⟩

/-! ## Lemmas about the multi-delete loop -/

theorem deleteBackupsGo_err_rows (execFails : Nat → Bool)
    (origRows : List Backup) :
    ∀ (bs : List Backup) (fs : FS) (txRows : List Backup),
      (deleteBackupsGo execFails origRows fs txRows bs).err = true →
      (deleteBackupsGo execFails origRows fs txRows bs).rows = origRows := by
  intro bs
  induction bs with
  | nil => intro fs txRows h; simp [deleteBackupsGo] at h
  | cons b rest ih =>
    intro fs txRows h
    by_cases hf : fsHas fs b.path = true
    · by_cases he : execFails b.id = true
      · simp [deleteBackupsGo, hf, he]
      · simp only [deleteBackupsGo, hf, if_true, he, if_false,
          Bool.false_eq_true] at h ⊢
        exact ih _ _ h
    · simp only [deleteBackupsGo, hf, if_false, Bool.false_eq_true] at h ⊢
      exact ih _ _ h

theorem deleteBackupsGo_preserves (execFails : Nat → Bool)
    (origRows : List Backup) (b : Backup) :
    ∀ (bs : List Backup) (fs : FS) (txRows : List Backup),
      b ∈ txRows → b ∈ origRows → fsHas fs b.path = false →
      (∀ b' ∈ bs, b'.id ≠ b.id ∨ b'.path = b.path) →
      b ∈ (deleteBackupsGo execFails origRows fs txRows bs).rows := by
  intro bs
  induction bs with
  | nil => intro fs txRows htx _ _ _; simpa [deleteBackupsGo] using htx
  | cons c rest ih =>
    intro fs txRows htx horig hfs hids
    by_cases hf : fsHas fs c.path = true
    · have hcb : c.id ≠ b.id := by
        rcases hids c (List.mem_cons_self c rest) with h | h
        · exact h
        · rw [h] at hf; rw [hf] at hfs; exact absurd hfs (by simp)
      by_cases he : execFails c.id = true
      · simpa [deleteBackupsGo, hf, he] using horig
      · simp only [deleteBackupsGo, hf, if_true, he, if_false]
        refine ih _ _ ?_ horig ?_ ?_
        · simp only [removeRow, List.mem_filter]
          exact ⟨htx, by simpa using fun h => hcb h.symm⟩
        · by_contra hcon
          have : fsHas (fsRemove fs c.path) b.path = true := by
            revert hcon; cases fsHas (fsRemove fs c.path) b.path <;> simp
          have := fsHas_of_fsHas_fsRemove fs b.path c.path this
          rw [this] at hfs; exact absurd hfs (by simp)
        · exact fun b' hb' => hids b' (List.mem_cons_of_mem c hb')
    · have hf' : fsHas fs c.path = false := by
        revert hf; cases fsHas fs c.path <;> simp
      simp only [deleteBackupsGo, hf', if_false]
      exact ih _ _ htx horig hfs fun b' hb' => hids b' (List.mem_cons_of_mem c hb')

/-! ## Claim C1: atomic rollback of the multi-delete transaction -/

/-- Claim C1: for `DeleteBackups` over a list of records, if any
database-level row removal fails, the whole transaction is rolled back: the
catalog rows are exactly those before the call, so every record in the list
(including those whose rows had already been deleted inside the transaction,
and regardless of which backing files were already removed from disk) is
still present in the catalog, and the error is surfaced (`err = true`). -/
theorem DeleteBackups_rollback_on_db_failure (execFails : Nat → Bool)
    (fs : FS) (db : DbState) (backups : List Backup)
    (hin : ∀ b ∈ backups, b ∈ db.rows)
    (herr : (DeleteBackups execFails fs db backups).err = true) :
    (DeleteBackups execFails fs db backups).rows = db.rows ∧
    ∀ b ∈ backups, b ∈ (DeleteBackups execFails fs db backups).rows := by
  have h := deleteBackupsGo_err_rows execFails db.rows backups fs db.rows herr
  exact ⟨h, fun b hb => h ▸ hin b hb⟩

/-- Witness for C1: two catalog records; the first record's file removal and
row deletion succeed inside the transaction, the database deletion of the
second record fails; both records are still in the catalog afterward. -/
theorem DeleteBackups_rollback_on_db_failure_witness :
    (DeleteBackups (fun i => i == 2) [("d/a.sav", "x"), ("d/b.sav", "y")]
        ⟨[⟨1, "a", "d/a.sav", ⟨2024, 1, 1, 0, 0, 0⟩⟩,
          ⟨2, "b", "d/b.sav", ⟨2024, 1, 1, 0, 0, 0⟩⟩], 3⟩
        [⟨1, "a", "d/a.sav", ⟨2024, 1, 1, 0, 0, 0⟩⟩,
         ⟨2, "b", "d/b.sav", ⟨2024, 1, 1, 0, 0, 0⟩⟩]).rows =
      [⟨1, "a", "d/a.sav", ⟨2024, 1, 1, 0, 0, 0⟩⟩,
       ⟨2, "b", "d/b.sav", ⟨2024, 1, 1, 0, 0, 0⟩⟩] ∧
    ∀ b ∈ [(⟨1, "a", "d/a.sav", ⟨2024, 1, 1, 0, 0, 0⟩⟩ : Backup),
           ⟨2, "b", "d/b.sav", ⟨2024, 1, 1, 0, 0, 0⟩⟩],
      b ∈ (DeleteBackups (fun i => i == 2) [("d/a.sav", "x"), ("d/b.sav", "y")]
        ⟨[⟨1, "a", "d/a.sav", ⟨2024, 1, 1, 0, 0, 0⟩⟩,
          ⟨2, "b", "d/b.sav", ⟨2024, 1, 1, 0, 0, 0⟩⟩], 3⟩
        [⟨1, "a", "d/a.sav", ⟨2024, 1, 1, 0, 0, 0⟩⟩,
         ⟨2, "b", "d/b.sav", ⟨2024, 1, 1, 0, 0, 0⟩⟩]).rows :=
  DeleteBackups_rollback_on_db_failure _ _ _ _ (by decide) (by decide)

/-! ## Claim C2: what happens to a record whose file removal fails -/

/-- Counterexample to claim C2: a single record whose backing file is
already absent.  `DeleteBackups` succeeds (`err = false`) yet the catalog
row is NOT removed — it is still the sole row afterward — refuting the claim
that the row of a record whose file removal failed is nevertheless removed
by a successful multi-delete. -/
theorem DeleteBackups_row_kept_counterexample :
    (DeleteBackups (fun _ => false) []
        ⟨[⟨1, "a", "d/a.sav", ⟨2024, 1, 1, 0, 0, 0⟩⟩], 2⟩
        [⟨1, "a", "d/a.sav", ⟨2024, 1, 1, 0, 0, 0⟩⟩]).err = false ∧
    (DeleteBackups (fun _ => false) []
        ⟨[⟨1, "a", "d/a.sav", ⟨2024, 1, 1, 0, 0, 0⟩⟩], 2⟩
        [⟨1, "a", "d/a.sav", ⟨2024, 1, 1, 0, 0, 0⟩⟩]).rows =
      [⟨1, "a", "d/a.sav", ⟨2024, 1, 1, 0, 0, 0⟩⟩] := by
  decide

/-- Claim C2 as amended: a file-removal failure is indeed not fatal — the
loop continues with exactly the remaining records — but the failing
record's catalog row is NOT removed: its database deletion is skipped, so
the row survives the multi-delete (whether the transaction later commits or
rolls back). -/
theorem DeleteBackups_file_failure_skips_row :
    (∀ (execFails : Nat → Bool) (origRows : List Backup) (fs : FS)
        (txRows : List Backup) (b : Backup) (rest : List Backup),
        fsHas fs b.path = false →
        deleteBackupsGo execFails origRows fs txRows (b :: rest) =
          deleteBackupsGo execFails origRows fs txRows rest) ∧
    (∀ (execFails : Nat → Bool) (fs : FS) (db : DbState)
        (backups : List Backup) (b : Backup),
        b ∈ backups → b ∈ db.rows → fsHas fs b.path = false →
        (∀ b' ∈ backups, b'.id ≠ b.id ∨ b'.path = b.path) →
        b ∈ (DeleteBackups execFails fs db backups).rows) := by
  constructor
  · intro ef orig fs tx b rest hfs
    simp [deleteBackupsGo, hfs]
  · intro ef fs db bs b _ hrow hfs hids
    exact deleteBackupsGo_preserves ef db.rows b bs fs db.rows hrow hrow hfs hids

/-- Witness for the amended C2: the skipped record is processed as a
no-op and its row survives a successful two-record delete in which the
other record is removed. -/
theorem DeleteBackups_file_failure_skips_row_witness :
    (deleteBackupsGo (fun _ => false) [] [("d/b.sav", "y")] []
        [⟨1, "a", "d/a.sav", ⟨2024, 1, 1, 0, 0, 0⟩⟩] =
      deleteBackupsGo (fun _ => false) [] [("d/b.sav", "y")] [] []) ∧
    (⟨1, "a", "d/a.sav", ⟨2024, 1, 1, 0, 0, 0⟩⟩ : Backup) ∈
      (DeleteBackups (fun _ => false) [("d/b.sav", "y")]
        ⟨[⟨1, "a", "d/a.sav", ⟨2024, 1, 1, 0, 0, 0⟩⟩,
          ⟨2, "b", "d/b.sav", ⟨2024, 1, 1, 0, 0, 0⟩⟩], 3⟩
        [⟨1, "a", "d/a.sav", ⟨2024, 1, 1, 0, 0, 0⟩⟩,
         ⟨2, "b", "d/b.sav", ⟨2024, 1, 1, 0, 0, 0⟩⟩]).rows :=
  ⟨DeleteBackups_file_failure_skips_row.1 _ _ _ _ _ _ (by decide),
   DeleteBackups_file_failure_skips_row.2 _ _ _ _ _ (by decide) (by decide)
     (by decide) (by decide)⟩

/-! ## Claim C9: missing source file -/

/-- Claim C9: if the configured source file does not exist, `CreateBackup`
returns the source-not-found error and leaves both the filesystem and the
catalog exactly as they were (no file write, no row insertion). -/
theorem CreateBackup_source_missing (now : DateTime)
    (savePath backupDir backupName : String) (fs : FS) (db : DbState)
    (h : fsGet fs savePath = none) :
    CreateBackup now savePath backupDir backupName fs db =
      ⟨fs, db, some ("save file not found: " ++ savePath)⟩ := by
  simp [CreateBackup, h]

/-- Witness for C9: empty filesystem, concrete configuration. -/
theorem CreateBackup_source_missing_witness :
    CreateBackup ⟨2024, 1, 1, 0, 0, 0⟩ "save" "dir" "nm" [] ⟨[], 1⟩ =
      ⟨[], ⟨[], 1⟩, some ("save file not found: " ++ "save")⟩ :=
  CreateBackup_source_missing _ _ _ _ _ _ (by decide)

/-! ## Claim C10: the state manager never rejects a transition -/

/-- Claim C10: `CanTransitionTo` returns `true` for every pair of current
and target states (the legal-transition table is not enforced at the
state-manager level), and `TransitionTo` unconditionally records the old
current state as previous and installs the requested state as current. -/
theorem StateManager_allows_all_transitions :
    ∀ (sm : StateManager) (newState : ViewState),
      CanTransitionTo sm newState = true ∧
      TransitionTo sm newState = ⟨newState, sm.current⟩ :=
  fun _ _ => ⟨rfl, rfl⟩

/-! ## Claim C7: selection set on entry into the Deleting state -/

/-- Counterexample to claim C7: declining the delete confirmation (key "n")
re-enters the `DeletingView` state with the previously marked selection set
intact — the entry does NOT start with an empty selection set. -/
theorem Deleting_entry_empty_selection_counterexample :
    ((handleDeleteConfirmationView (Except.ok ()) "n"
        ⟨⟨DeleteConfirmationView, DeletingView⟩, none, none, [0], [], 0, 0,
          0⟩).1.sm.current = DeletingView) ∧
    ¬ ((handleDeleteConfirmationView (Except.ok ()) "n"
        ⟨⟨DeleteConfirmationView, DeletingView⟩, none, none, [0], [], 0, 0,
          0⟩).1.selected = []) := by
  constructor
  · rfl
  · intro h
    simp [handleDeleteConfirmationView, transitionToState, TransitionTo] at h

/-- Claim C7 as amended: entering the Deleting state from the main menu
(`handleDeleteBackups`) always starts with an empty selection set, but
re-entry after declining a delete confirmation (keys "n"/"N"/"q" in
`handleDeleteConfirmationView`) preserves the selection set unchanged. -/
theorem Deleting_entry_selection_set :
    (∀ (fetch : Except String (List Backup)) (s : CtrlState),
        (handleDeleteBackups fetch s).1.selected = [] ∧
        (handleDeleteBackups fetch s).1.sm.current = DeletingView) ∧
    (∀ (deleteRes : Except String Unit) (k : String) (s : CtrlState),
        k = "n" ∨ k = "N" ∨ k = "q" →
        (handleDeleteConfirmationView deleteRes k s).1.sm.current =
          DeletingView ∧
        (handleDeleteConfirmationView deleteRes k s).1.selected =
          s.selected) := by
  constructor
  · intro fetch s
    cases fetch <;>
      simp [handleDeleteBackups, transitionToState, TransitionTo]
  · intro dr k s hk
    rcases hk with h | h | h <;> subst h <;>
      simp [handleDeleteConfirmationView, transitionToState, TransitionTo]

/-- Witness for the amended C7, at concrete states: a main-menu entry
clears a non-empty selection set, and a declined confirmation preserves
it. -/
theorem Deleting_entry_selection_set_witness :
    ((handleDeleteBackups (Except.ok [])
        ⟨⟨MainMenuView, MainMenuView⟩, none, none, [0, 1], [], 0, 0,
          0⟩).1.selected = [] ∧
      (handleDeleteBackups (Except.ok [])
        ⟨⟨MainMenuView, MainMenuView⟩, none, none, [0, 1], [], 0, 0,
          0⟩).1.sm.current = DeletingView) ∧
    ((handleDeleteConfirmationView (Except.ok ()) "N"
        ⟨⟨DeleteConfirmationView, DeletingView⟩, none, none, [2], [], 0, 0,
          0⟩).1.sm.current = DeletingView ∧
      (handleDeleteConfirmationView (Except.ok ()) "N"
        ⟨⟨DeleteConfirmationView, DeletingView⟩, none, none, [2], [], 0, 0,
          0⟩).1.selected =
        (⟨⟨DeleteConfirmationView, DeletingView⟩, none, none, [2], [], 0, 0,
          0⟩ : CtrlState).selected) :=
  ⟨Deleting_entry_selection_set.1 _ _,
   Deleting_entry_selection_set.2 _ _ _ (Or.inr (Or.inl rfl))⟩

/-! ## Claim C8: behavior after an error -/

/-- Counterexample to claim C8: with an error set and the recorded view
state `CreateBackupView`, the input event key "q" still causes a state
transition — the global key handler runs before the error check and moves
the state manager to `MainMenuView`. -/
theorem Error_state_freeze_counterexample :
    (controllerUpdate (fun _ _ s => (s, []))
        ⟨⟨CreateBackupView, MainMenuView⟩, some "boom", none, [], [], 0, 0, 0⟩
        (Msg.key "q")).st.sm.current = MainMenuView ∧
    ¬ ((controllerUpdate (fun _ _ s => (s, []))
        ⟨⟨CreateBackupView, MainMenuView⟩, some "boom", none, [], [], 0, 0, 0⟩
        (Msg.key "q")).st.sm.current = CreateBackupView) := by
  constructor
  · rfl
  · intro h
    simp [controllerUpdate, handleGlobalMessages, shouldAllowQuitToMainMenu,
      transitionToState, TransitionTo] at h

/-- Claim C8 as amended: once an error is set, no input event reaches a view
handler (for every possible routing behavior the routed effects are empty,
so no catalog operation runs), the error remains set, and the only state
change an input can cause is the global handlers' move of the recorded view
state to `MainMenuView`; the update quits exactly on the ctrl+c quit
signal.  There is no in-session recovery: the error slot is never
cleared. -/
theorem Error_state_frozen (route : ViewState → Msg → CtrlState →
      CtrlState × List Effect)
    (s : CtrlState) (m : Msg) (herr : s.err.isSome = true) :
    (controllerUpdate route s m).effects = [] ∧
    (controllerUpdate route s m).st.err.isSome = true ∧
    ((controllerUpdate route s m).st.sm.current = s.sm.current ∨
      (controllerUpdate route s m).st.sm.current = MainMenuView) ∧
    ((controllerUpdate route s m).quit = true ↔ m = Msg.key "ctrl+c") := by
  cases m with
  | key k =>
    by_cases hc : k = "ctrl+c"
    · subst hc
      simp [controllerUpdate, handleGlobalMessages, herr]
    · by_cases hq : shouldAllowQuitToMainMenu s = true ∧ k = "q"
      · simp [controllerUpdate, handleGlobalMessages, hc, hq, herr,
          transitionToState, TransitionTo]
      · simp [controllerUpdate, handleGlobalMessages, hc, hq, herr]
  | windowSize w h =>
    simp [controllerUpdate, handleGlobalMessages, herr]
  | clearNotificationMsg =>
    simp [controllerUpdate, handleGlobalMessages, herr]
  | databaseInitializedMsg =>
    simp [controllerUpdate, handleGlobalMessages, herr, transitionToState,
      TransitionTo]
  | errMsg e =>
    simp [controllerUpdate, handleGlobalMessages, herr]

/-- Witness for the amended C8 at a concrete error state and input. -/
theorem Error_state_frozen_witness :
    (controllerUpdate (fun _ _ s => (s, [Effect.catalogOp "spurious"]))
        ⟨⟨SettingsView, MainMenuView⟩, some "boom", none, [], [], 0, 0, 0⟩
        Msg.clearNotificationMsg).effects = [] ∧
    (controllerUpdate (fun _ _ s => (s, [Effect.catalogOp "spurious"]))
        ⟨⟨SettingsView, MainMenuView⟩, some "boom", none, [], [], 0, 0, 0⟩
        Msg.clearNotificationMsg).st.err.isSome = true ∧
    ((controllerUpdate (fun _ _ s => (s, [Effect.catalogOp "spurious"]))
        ⟨⟨SettingsView, MainMenuView⟩, some "boom", none, [], [], 0, 0, 0⟩
        Msg.clearNotificationMsg).st.sm.current =
        (⟨⟨SettingsView, MainMenuView⟩, some "boom", none, [], [], 0, 0, 0⟩ :
          CtrlState).sm.current ∨
      (controllerUpdate (fun _ _ s => (s, [Effect.catalogOp "spurious"]))
        ⟨⟨SettingsView, MainMenuView⟩, some "boom", none, [], [], 0, 0, 0⟩
        Msg.clearNotificationMsg).st.sm.current = MainMenuView) ∧
    ((controllerUpdate (fun _ _ s => (s, [Effect.catalogOp "spurious"]))
        ⟨⟨SettingsView, MainMenuView⟩, some "boom", none, [], [], 0, 0, 0⟩
        Msg.clearNotificationMsg).quit = true ↔
      Msg.clearNotificationMsg = Msg.key "ctrl+c") :=
  Error_state_frozen _ _ _ (by decide)

/-! ## Decimal representation: round-trip and injectivity -/

theorem natDigitsAux_fromDigits :
    ∀ (fuel n : Nat), n < 10 ^ fuel → fromDigits (natDigitsAux fuel n) = n := by
  intro fuel
  induction fuel with
  | zero => intro n h; interval_cases n; rfl
  | succ f ih =>
    intro n h
    by_cases h10 : n < 10
    · simp [natDigitsAux, h10, fromDigits]
    · have hdiv : n / 10 < 10 ^ f := by
        rw [Nat.div_lt_iff_lt_mul (by norm_num)]
        calc n < 10 ^ (f + 1) := h
          _ = 10 ^ f * 10 := by ring
      simp only [natDigitsAux, h10, if_false, fromDigits]
      rw [ih _ hdiv]
      omega

theorem fromDigits_natDigits (n : Nat) : fromDigits (natDigits n) = n := by
  refine natDigitsAux_fromDigits (n + 1) n ?_
  calc n < 10 ^ n := Nat.lt_pow_self (by norm_num) n
    _ ≤ 10 ^ (n + 1) := Nat.pow_le_pow_right (by norm_num) (Nat.le_succ n)

theorem natDigits_inj {m n : Nat} (h : natDigits m = natDigits n) : m = n := by
  have := congrArg fromDigits h
  rwa [fromDigits_natDigits, fromDigits_natDigits] at this

theorem natDigitsAux_lt_ten :
    ∀ (fuel n : Nat), ∀ d ∈ natDigitsAux fuel n, d < 10 := by
  intro fuel
  induction fuel with
  | zero => intro n d hd; simp [natDigitsAux] at hd
  | succ f ih =>
    intro n d hd
    by_cases h10 : n < 10
    · simp [natDigitsAux, h10] at hd
      omega
    · simp only [natDigitsAux, h10, if_false, List.mem_cons] at hd
      rcases hd with h | h
      · omega
      · exact ih _ _ h

theorem natDigits_ne_nil (n : Nat) : natDigits n ≠ [] := by
  by_cases h10 : n < 10 <;> simp [natDigits, natDigitsAux, h10]

theorem decChar_inj_on :
    ∀ d1 < 10, ∀ d2 < 10, decChar d1 = decChar d2 → d1 = d2 := by decide

theorem map_decChar_inj :
    ∀ (l1 l2 : List Nat), (∀ d ∈ l1, d < 10) → (∀ d ∈ l2, d < 10) →
      l1.map decChar = l2.map decChar → l1 = l2 := by
  intro l1
  induction l1 with
  | nil => intro l2 _ _ h; cases l2 <;> simp_all
  | cons a l ih =>
    intro l2 h1 h2 h
    cases l2 with
    | nil => simp at h
    | cons b l' =>
      simp only [List.map_cons, List.cons.injEq] at h
      have ha : a = b :=
        decChar_inj_on a (h1 a (by simp)) b (h2 b (by simp)) h.1
      have hl : l = l' :=
        ih l' (fun d hd => h1 d (by simp [hd]))
          (fun d hd => h2 d (by simp [hd])) h.2
      rw [ha, hl]

theorem natToDec_inj {m n : Nat} (h : natToDec m = natToDec n) : m = n := by
  have hdata := congrArg String.data h
  simp only [natToDec] at hdata
  have hrev : (natDigits m).reverse = (natDigits n).reverse :=
    map_decChar_inj _ _
      (fun d hd => natDigitsAux_lt_ten _ _ d (List.mem_reverse.mp hd))
      (fun d hd => natDigitsAux_lt_ten _ _ d (List.mem_reverse.mp hd)) hdata
  exact natDigits_inj (List.reverse_inj.mp hrev)

theorem natToDec_length_pos (n : Nat) : 0 < (natToDec n).length := by
  have := natDigits_ne_nil n
  simp only [natToDec, String.length]
  cases hd : natDigits n with
  | nil => exact absurd hd this
  | cons a l => simp [hd]

/-! ## Injectivity of the candidate name sequence -/

theorem candName_inj (base : String) {i j : Nat}
    (h : candName base i = candName base j) : i = j := by
  match i, j with
  | 0, 0 => rfl
  | 0, Nat.succ k =>
    exfalso
    have hl := congrArg String.length h
    have h1 : ("_" : String).length = 1 := rfl
    simp only [candName, String.length_append] at hl
    have := natToDec_length_pos (k + 1)
    omega
  | Nat.succ k, 0 =>
    exfalso
    have hl := congrArg String.length h
    have h1 : ("_" : String).length = 1 := rfl
    simp only [candName, String.length_append] at hl
    have := natToDec_length_pos (k + 1)
    omega
  | Nat.succ k, Nat.succ l =>
    have hd := congrArg String.data h
    simp only [candName, String.data_append, List.append_assoc] at hd
    have h2 := List.append_cancel_left hd
    have h3 := List.append_cancel_left h2
    have := natToDec_inj (String.ext h3)
    omega

theorem candPath_inj (dir base : String) {i j : Nat}
    (h : candPath dir base i = candPath dir base j) : i = j := by
  apply candName_inj base
  have hd := congrArg String.data h
  simp only [candPath, joinPath, String.data_append, List.append_assoc] at hd
  have h2 := List.append_cancel_left hd
  have h3 := List.append_cancel_left h2
  exact String.ext (List.append_cancel_right h3)

theorem candPath_injective (dir base : String) :
    Function.Injective (candPath dir base) :=
  fun _ _ h => candPath_inj dir base h

/-! ## The collision loop returns an unused candidate -/

theorem resolveIdx_free (fs : FS) (dir base : String) :
    ∀ (fuel j : Nat),
      (∃ i, i < fuel ∧ fsHas fs (candPath dir base (j + i)) = false) →
      fsHas fs (candPath dir base (resolveIdx fs dir base fuel j)) = false := by
  intro fuel
  induction fuel with
  | zero => intro j h; obtain ⟨i, hi, _⟩ := h; omega
  | succ f ih =>
    intro j h
    by_cases hj : fsHas fs (candPath dir base j) = true
    · simp only [resolveIdx, hj, if_true]
      refine ih (j + 1) ?_
      obtain ⟨i, hi, hfree⟩ := h
      match i, hi with
      | 0, _ => rw [Nat.add_zero] at hfree; rw [hfree] at hj; cases hj
      | i' + 1, hi =>
        exact ⟨i', by omega, by rw [show j + 1 + i' = j + (i' + 1) by omega]; exact hfree⟩
    · have hj' : fsHas fs (candPath dir base j) = false := by
        revert hj; cases fsHas fs (candPath dir base j) <;> simp
      simp only [resolveIdx, hj', if_false]
      exact hj'

theorem exists_free_candidate (fs : FS) (dir base : String) :
    ∃ i, i < fs.length + 1 ∧ fsHas fs (candPath dir base i) = false := by
  by_contra hcon
  push_neg at hcon
  have hall : ∀ i < fs.length + 1, fsHas fs (candPath dir base i) = true := by
    intro i hi
    have := hcon i hi
    revert this; cases fsHas fs (candPath dir base i) <;> simp
  have hsub : Finset.image (candPath dir base) (Finset.range (fs.length + 1)) ⊆
      (fs.map Prod.fst).toFinset := by
    intro p hp
    simp only [Finset.mem_image, Finset.mem_range] at hp
    obtain ⟨i, hi, rfl⟩ := hp
    obtain ⟨v, hv⟩ := (fsHas_iff_exists fs _).mp (hall i hi)
    rw [List.mem_toFinset]
    exact List.mem_map.mpr ⟨(candPath dir base i, v), hv, rfl⟩
  have hcard := Finset.card_le_card hsub
  rw [Finset.card_image_of_injective _ (candPath_injective dir base),
    Finset.card_range] at hcard
  have := (fs.map Prod.fst).toFinset_card_le
  simp only [List.length_map] at this
  omega

theorem resolveName_path_fresh (fs : FS) (dir base : String) :
    fsHas fs (joinPath dir (resolveName fs dir base ++ ".sav")) = false := by
  have h := resolveIdx_free fs dir base (fs.length + 1) 0 (by
    obtain ⟨i, hi, hfree⟩ := exists_free_candidate fs dir base
    exact ⟨i, hi, by simpa using hfree⟩)
  simpa [resolveName, candPath] using h

theorem resolveIdx_first_free (fs : FS) (dir base : String) :
    ∀ (fuel j k : Nat), j ≤ k → k - j < fuel →
      (∀ i, j ≤ i → i < k → fsHas fs (candPath dir base i) = true) →
      fsHas fs (candPath dir base k) = false →
      resolveIdx fs dir base fuel j = k := by
  intro fuel
  induction fuel with
  | zero => intro j k _ h _ _; omega
  | succ f ih =>
    intro j k hjk hfuel hocc hfree
    by_cases hj : j = k
    · subst hj
      simp only [resolveIdx, hfree, Bool.false_eq_true, if_false]
    · have hlt : j < k := lt_of_le_of_ne hjk hj
      have hocc_j : fsHas fs (candPath dir base j) = true :=
        hocc j (le_refl j) hlt
      simp only [resolveIdx, hocc_j, if_true]
      exact ih (j + 1) k (by omega) (by omega)
        (fun i hi1 hi2 => hocc i (by omega) hi2) hfree

/-! ## Claim C4: create/restore round-trip -/

/-- Claim C4: if `CreateBackup` runs while the source file contains `X`, it
succeeds, appends exactly one catalog record, and — provided the created
backup's file is not modified afterward — `RestoreBackup` on that record
succeeds and leaves the source file containing exactly `X`. -/
theorem CreateBackup_RestoreBackup_roundtrip (now : DateTime)
    (savePath backupDir backupName X : String) (fs : FS) (db : DbState)
    (h : fsGet fs savePath = some X) :
    (CreateBackup now savePath backupDir backupName fs db).err = none ∧
    ∃ rec : Backup,
      (CreateBackup now savePath backupDir backupName fs db).db.rows =
        db.rows ++ [rec] ∧
      (RestoreBackup rec savePath
        (CreateBackup now savePath backupDir backupName fs db).fs).2 = none ∧
      fsGet (RestoreBackup rec savePath
          (CreateBackup now savePath backupDir backupName fs db).fs).1
        savePath = some X := by
  constructor
  · simp [CreateBackup, h]
  · refine ⟨⟨db.nextId,
      resolveName fs backupDir
        (if backupName = "" then "Backup_" ++ formatTS now else backupName),
      joinPath backupDir
        (resolveName fs backupDir
          (if backupName = "" then "Backup_" ++ formatTS now else backupName)
          ++ ".sav"),
      now⟩, ?_, ?_, ?_⟩
    · simp [CreateBackup, h]
    · simp [CreateBackup, h, RestoreBackup, fsGet_fsWrite_self]
    · simp [CreateBackup, h, RestoreBackup, fsGet_fsWrite_self]

/-- Witness for C4 at a concrete filesystem and catalog. -/
theorem CreateBackup_RestoreBackup_roundtrip_witness :
    (CreateBackup ⟨2024, 1, 1, 0, 0, 0⟩ "save" "d" "b" [("save", "X")]
        ⟨[], 1⟩).err = none ∧
    ∃ rec : Backup,
      (CreateBackup ⟨2024, 1, 1, 0, 0, 0⟩ "save" "d" "b" [("save", "X")]
          ⟨[], 1⟩).db.rows = (⟨[], 1⟩ : DbState).rows ++ [rec] ∧
      (RestoreBackup rec "save"
        (CreateBackup ⟨2024, 1, 1, 0, 0, 0⟩ "save" "d" "b" [("save", "X")]
          ⟨[], 1⟩).fs).2 = none ∧
      fsGet (RestoreBackup rec "save"
          (CreateBackup ⟨2024, 1, 1, 0, 0, 0⟩ "save" "d" "b" [("save", "X")]
            ⟨[], 1⟩).fs).1 "save" = some "X" :=
  CreateBackup_RestoreBackup_roundtrip _ _ _ _ _ _ _ (by decide)

/-! ## Claim C6: empty name synthesizes a timestamped name -/

theorem autoName_ne_empty (now : DateTime) :
    ("Backup_" ++ formatTS now) ≠ "" := by
  intro h
  have hl := congrArg String.length h
  have h7 : ("Backup_" : String).length = 7 := rfl
  have h0 : ("" : String).length = 0 := rfl
  rw [String.length_append, h7, h0] at hl
  omega

/-- Claim C6: `CreateBackup` with an empty name behaves exactly as if called
with the synthesized name `Backup_` + the current timestamp in the fixed
`YYYY-MM-DD_HH-MM-SS` format; in particular, with system time
2024-01-01 10:00:00 and source content "save-v1" it produces the catalog
entry named `Backup_2024-01-01_10-00-00` and the file
`backup_dir/Backup_2024-01-01_10-00-00.sav` containing "save-v1". -/
theorem CreateBackup_empty_name_synthesizes_timestamp :
    (∀ (now : DateTime) (savePath backupDir : String) (fs : FS)
        (db : DbState),
      CreateBackup now savePath backupDir "" fs db =
        CreateBackup now savePath backupDir ("Backup_" ++ formatTS now) fs
          db) ∧
    (CreateBackup ⟨2024, 1, 1, 10, 0, 0⟩ "save_path" "backup_dir" ""
        [("save_path", "save-v1")] ⟨[], 1⟩ =
      ⟨[("backup_dir/Backup_2024-01-01_10-00-00.sav", "save-v1"),
        ("save_path", "save-v1")],
       ⟨[⟨1, "Backup_2024-01-01_10-00-00",
           "backup_dir/Backup_2024-01-01_10-00-00.sav",
           ⟨2024, 1, 1, 10, 0, 0⟩⟩], 2⟩,
       none⟩) := by
  constructor
  · intro now savePath backupDir fs db
    unfold CreateBackup
    cases hx : fsGet fs savePath with
    | none => rfl
    | some data =>
      simp [autoName_ne_empty now]
  · decide

/-! ## Claim C5: auto-backup before a confirmed restore -/

/-- Claim C5: with the auto-backup flag set, an auto-named backup of the
current source content is created before the restore.  If that creation
fails (source file missing) the restore is aborted, the error surfaces, and
nothing changes.  After a successful run, the catalog holds exactly one new
record, auto-named `Backup_` + timestamp (collision-resolved), whose file
holds the pre-restore source content `X`, and the source file holds the
restored backup's content `Y`. -/
theorem RestoreSelectedBackupWithAutoBackup_policy (now : DateTime)
    (savePath backupDir : String) (b : Backup) (fs : FS) (db : DbState) :
    (fsGet fs savePath = none →
      RestoreSelectedBackupWithAutoBackup now savePath backupDir true b fs
          db =
        ⟨fs, db, some ("failed to create auto-backup: " ++
          ("save file not found: " ++ savePath))⟩) ∧
    (∀ X Y, fsGet fs savePath = some X → fsGet fs b.path = some Y →
      (RestoreSelectedBackupWithAutoBackup now savePath backupDir true b fs
          db).err = none ∧
      fsGet (RestoreSelectedBackupWithAutoBackup now savePath backupDir true
          b fs db).fs savePath = some Y ∧
      (RestoreSelectedBackupWithAutoBackup now savePath backupDir true b fs
          db).db.rows =
        db.rows ++ [⟨db.nextId,
          resolveName fs backupDir ("Backup_" ++ formatTS now),
          joinPath backupDir
            (resolveName fs backupDir ("Backup_" ++ formatTS now) ++ ".sav"),
          now⟩] ∧
      fsGet (RestoreSelectedBackupWithAutoBackup now savePath backupDir true
          b fs db).fs
        (joinPath backupDir
          (resolveName fs backupDir ("Backup_" ++ formatTS now) ++ ".sav")) =
        some X) := by
  constructor
  · intro h
    simp [RestoreSelectedBackupWithAutoBackup, CreateBackup, h]
  · intro X Y hX hY
    have hbase := autoName_ne_empty now
    have hfresh : fsHas fs (joinPath backupDir
        (resolveName fs backupDir ("Backup_" ++ formatTS now) ++ ".sav")) =
        false :=
      resolveName_path_fresh fs backupDir ("Backup_" ++ formatTS now)
    have hspin : fsHas fs savePath = true := by simp [fsHas, hX]
    have hbin : fsHas fs b.path = true := by simp [fsHas, hY]
    have hps : savePath ≠ joinPath backupDir
        (resolveName fs backupDir ("Backup_" ++ formatTS now) ++ ".sav") := by
      intro he
      rw [← he] at hfresh
      rw [hspin] at hfresh
      cases hfresh
    have hpb : b.path ≠ joinPath backupDir
        (resolveName fs backupDir ("Backup_" ++ formatTS now) ++ ".sav") := by
      intro he
      rw [← he] at hfresh
      rw [hbin] at hfresh
      cases hfresh
    have hcreate : CreateBackup now savePath backupDir
        ("Backup_" ++ formatTS now) fs db =
        ⟨fsWrite fs (joinPath backupDir
            (resolveName fs backupDir ("Backup_" ++ formatTS now) ++ ".sav"))
            X,
         ⟨db.rows ++ [⟨db.nextId,
             resolveName fs backupDir ("Backup_" ++ formatTS now),
             joinPath backupDir
               (resolveName fs backupDir ("Backup_" ++ formatTS now) ++
                 ".sav"),
             now⟩], db.nextId + 1⟩,
         none⟩ := by
      simp [CreateBackup, hX, hbase]
    have hrest : RestoreBackup b savePath
        (fsWrite fs (joinPath backupDir
          (resolveName fs backupDir ("Backup_" ++ formatTS now) ++ ".sav"))
          X) =
        (fsWrite (fsWrite fs (joinPath backupDir
            (resolveName fs backupDir ("Backup_" ++ formatTS now) ++ ".sav"))
            X) savePath Y, none) := by
      simp only [RestoreBackup, fsGet_fsWrite_ne _ _ _ _ hpb, hY]
    simp only [RestoreSelectedBackupWithAutoBackup, if_true, hcreate, hrest]
    refine ⟨trivial, fsGet_fsWrite_self _ _ _, trivial, ?_⟩
    rw [fsGet_fsWrite_ne _ _ _ _ (fun he => hps he.symm)]
    exact fsGet_fsWrite_self _ _ _

/-- Witness for C5: the abort conjunct at an empty filesystem, and the
success conjunct at the spec's scenario (source holds "save-v2", the
selected backup holds "save-v0"). -/
theorem RestoreSelectedBackupWithAutoBackup_policy_witness :
    (RestoreSelectedBackupWithAutoBackup ⟨2024, 1, 1, 10, 0, 0⟩ "save" "d"
        true ⟨1, "B", "d/B.sav", ⟨2024, 1, 1, 0, 0, 0⟩⟩ [] ⟨[], 1⟩ =
      ⟨[], ⟨[], 1⟩, some ("failed to create auto-backup: " ++
        ("save file not found: " ++ "save"))⟩) ∧
    ((RestoreSelectedBackupWithAutoBackup ⟨2024, 1, 1, 10, 0, 0⟩ "save" "d"
        true ⟨1, "B", "d/B.sav", ⟨2024, 1, 1, 0, 0, 0⟩⟩
        [("save", "save-v2"), ("d/B.sav", "save-v0")]
        ⟨[⟨1, "B", "d/B.sav", ⟨2024, 1, 1, 0, 0, 0⟩⟩], 2⟩).err = none ∧
      fsGet (RestoreSelectedBackupWithAutoBackup ⟨2024, 1, 1, 10, 0, 0⟩
          "save" "d" true ⟨1, "B", "d/B.sav", ⟨2024, 1, 1, 0, 0, 0⟩⟩
          [("save", "save-v2"), ("d/B.sav", "save-v0")]
          ⟨[⟨1, "B", "d/B.sav", ⟨2024, 1, 1, 0, 0, 0⟩⟩], 2⟩).fs "save" =
        some "save-v0" ∧
      (RestoreSelectedBackupWithAutoBackup ⟨2024, 1, 1, 10, 0, 0⟩ "save" "d"
          true ⟨1, "B", "d/B.sav", ⟨2024, 1, 1, 0, 0, 0⟩⟩
          [("save", "save-v2"), ("d/B.sav", "save-v0")]
          ⟨[⟨1, "B", "d/B.sav", ⟨2024, 1, 1, 0, 0, 0⟩⟩], 2⟩).db.rows =
        (⟨[⟨1, "B", "d/B.sav", ⟨2024, 1, 1, 0, 0, 0⟩⟩], 2⟩ : DbState).rows ++
          [⟨(⟨[⟨1, "B", "d/B.sav", ⟨2024, 1, 1, 0, 0, 0⟩⟩], 2⟩ :
              DbState).nextId,
            resolveName [("save", "save-v2"), ("d/B.sav", "save-v0")] "d"
              ("Backup_" ++ formatTS ⟨2024, 1, 1, 10, 0, 0⟩),
            joinPath "d"
              (resolveName [("save", "save-v2"), ("d/B.sav", "save-v0")] "d"
                ("Backup_" ++ formatTS ⟨2024, 1, 1, 10, 0, 0⟩) ++ ".sav"),
            ⟨2024, 1, 1, 10, 0, 0⟩⟩] ∧
      fsGet (RestoreSelectedBackupWithAutoBackup ⟨2024, 1, 1, 10, 0, 0⟩
          "save" "d" true ⟨1, "B", "d/B.sav", ⟨2024, 1, 1, 0, 0, 0⟩⟩
          [("save", "save-v2"), ("d/B.sav", "save-v0")]
          ⟨[⟨1, "B", "d/B.sav", ⟨2024, 1, 1, 0, 0, 0⟩⟩], 2⟩).fs
        (joinPath "d"
          (resolveName [("save", "save-v2"), ("d/B.sav", "save-v0")] "d"
            ("Backup_" ++ formatTS ⟨2024, 1, 1, 10, 0, 0⟩) ++ ".sav")) =
        some "save-v2") :=
  ⟨(RestoreSelectedBackupWithAutoBackup_policy _ _ _ _ _ _).1 (by decide),
   (RestoreSelectedBackupWithAutoBackup_policy _ _ _ _ _ _).2 "save-v2"
     "save-v0" (by decide) (by decide)⟩

/-! ## Claim C3: uniqueness of resolved paths under repeated creation -/

theorem fsGet_append_of_keys_ne (l fs : FS) (p : String)
    (h : ∀ e ∈ l, ¬ e.1 = p) : fsGet (l ++ fs) p = fsGet fs p := by
  induction l with
  | nil => rfl
  | cons e l ih =>
    have he : decide (e.1 = p) = false :=
      decide_eq_false (h e (List.mem_cons_self e l))
    simp only [List.cons_append, fsGet, List.find?_cons, he]
    exact ih fun e' he' => h e' (List.mem_cons_of_mem e he')

theorem fsHas_append_left (l fs : FS) (p v : String) (h : (p, v) ∈ l) :
    fsHas (l ++ fs) p = true :=
  (fsHas_iff_exists _ _).mpr ⟨v, List.mem_append_left fs h⟩

theorem fsHas_eq_false_of_not_exists (fs : FS) (p : String)
    (h : ∀ v, ¬ (p, v) ∈ fs) : fsHas fs p = false := by
  cases hb : fsHas fs p with
  | false => rfl
  | true =>
    obtain ⟨v, hv⟩ := (fsHas_iff_exists fs p).mp hb
    exact absurd hv (h v)

theorem iterCreate_spec (times : Nat → DateTime)
    (savePath backupDir backupName X : String) (fs0 : FS) (db : DbState)
    (N : Nat) (hname : backupName ≠ "")
    (hsrc : fsGet fs0 savePath = some X)
    (hfresh : ∀ n, n < N →
      fsHas fs0 (candPath backupDir backupName n) = false) :
    ∀ k, k ≤ N →
      iterCreate times savePath backupDir backupName fs0 db k =
        ⟨(List.range k).reverse.map
            (fun i => (candPath backupDir backupName i, X)) ++ fs0,
         ⟨db.rows ++ (List.range k).map (fun i =>
             (⟨db.nextId + i, candName backupName i,
               candPath backupDir backupName i, times i⟩ : Backup)),
          db.nextId + k⟩,
         none⟩ := by
  intro k
  induction k with
  | zero => intro _; simp [iterCreate]
  | succ k ih =>
    intro hk
    have hkN : k ≤ N := Nat.le_of_succ_le hk
    have hik := ih hkN
    have hsp : fsHas fs0 savePath = true := by simp [fsHas, hsrc]
    have hkeys : ∀ e ∈ (List.range k).reverse.map
        (fun i => (candPath backupDir backupName i, X)),
        ¬ e.1 = savePath := by
      intro e he heq
      simp only [List.mem_map, List.mem_reverse, List.mem_range] at he
      obtain ⟨i, hi, rfl⟩ := he
      have h1 := hfresh i (lt_of_lt_of_le hi hkN)
      have heq' : candPath backupDir backupName i = savePath := heq
      rw [heq', hsp] at h1
      cases h1
    have hget : fsGet ((List.range k).reverse.map
        (fun i => (candPath backupDir backupName i, X)) ++ fs0) savePath =
        some X := by
      rw [fsGet_append_of_keys_ne _ _ _ hkeys]
      exact hsrc
    have hocc : ∀ i, 0 ≤ i → i < k →
        fsHas ((List.range k).reverse.map
            (fun j => (candPath backupDir backupName j, X)) ++ fs0)
          (candPath backupDir backupName i) = true := by
      intro i _ hi
      refine fsHas_append_left _ _ _ X ?_
      exact List.mem_map.mpr ⟨i, by simp [hi], rfl⟩
    have hfree : fsHas ((List.range k).reverse.map
        (fun j => (candPath backupDir backupName j, X)) ++ fs0)
        (candPath backupDir backupName k) = false := by
      apply fsHas_eq_false_of_not_exists
      intro v hv
      rcases List.mem_append.mp hv with h | h
      · simp only [List.mem_map, List.mem_reverse, List.mem_range] at h
        obtain ⟨i, hi, hpair⟩ := h
        have hpp : candPath backupDir backupName i =
            candPath backupDir backupName k :=
          congrArg Prod.fst hpair
        have := candPath_inj backupDir backupName hpp
        omega
      · have h1 := hfresh k hk
        have h2 : fsHas fs0 (candPath backupDir backupName k) = true :=
          (fsHas_iff_exists fs0 _).mpr ⟨v, h⟩
        rw [h2] at h1
        cases h1
    have hlen : ((List.range k).reverse.map
        (fun j => (candPath backupDir backupName j, X)) ++ fs0).length =
        k + fs0.length := by simp
    have hres : resolveIdx ((List.range k).reverse.map
        (fun j => (candPath backupDir backupName j, X)) ++ fs0) backupDir
        backupName
        (((List.range k).reverse.map
          (fun j => (candPath backupDir backupName j, X)) ++ fs0).length + 1)
        0 = k := by
      refine resolveIdx_first_free _ _ _ _ 0 k (Nat.zero_le k) ?_ hocc hfree
      rw [hlen]
      omega
    simp only [iterCreate]
    rw [hik]
    simp only [CreateBackup, hget, if_neg hname, resolveName, hres]
    simp [candPath, fsWrite, List.range_succ, Nat.add_assoc]

/-- Claim C3: for a sequence of `CreateBackup` calls with the same fixed
non-empty name against a backup directory initially free of the candidate
paths, every call succeeds and call `i + 1` creates the record with name
`candName name i` and path `candPath dir name i` — so the first call uses
`<name>.sav`, the `N`-th colliding call resolves to `<name>_<N-1>.sav`, the
catalog records exactly the resolved name used for the file, and the
resolved paths are pairwise distinct (`candPath` is injective). -/
theorem CreateBackup_unique_paths (times : Nat → DateTime)
    (savePath backupDir backupName X : String) (fs0 : FS) (db : DbState)
    (N : Nat) (hname : backupName ≠ "")
    (hsrc : fsGet fs0 savePath = some X)
    (hfresh : ∀ n, n < N →
      fsHas fs0 (candPath backupDir backupName n) = false) :
    (∀ k, k ≤ N →
      (iterCreate times savePath backupDir backupName fs0 db k).err = none ∧
      (iterCreate times savePath backupDir backupName fs0 db k).db.rows =
        db.rows ++ (List.range k).map (fun i =>
          (⟨db.nextId + i, candName backupName i,
            candPath backupDir backupName i, times i⟩ : Backup))) ∧
    candName backupName 0 = backupName ∧
    (∀ i j, candPath backupDir backupName i = candPath backupDir backupName j
      → i = j) := by
  refine ⟨?_, rfl, fun i j h => candPath_inj backupDir backupName h⟩
  intro k hk
  rw [iterCreate_spec times savePath backupDir backupName X fs0 db N hname
    hsrc hfresh k hk]
  exact ⟨rfl, rfl⟩

/-- Witness for C3: three creations named "b" starting from a filesystem
holding only the source file. -/
theorem CreateBackup_unique_paths_witness :
    (∀ k, k ≤ 3 →
      (iterCreate (fun _ => ⟨2024, 1, 1, 0, 0, 0⟩) "save" "d" "b"
        [("save", "X")] ⟨[], 1⟩ k).err = none ∧
      (iterCreate (fun _ => ⟨2024, 1, 1, 0, 0, 0⟩) "save" "d" "b"
        [("save", "X")] ⟨[], 1⟩ k).db.rows =
        (⟨[], 1⟩ : DbState).rows ++ (List.range k).map (fun i =>
          (⟨(⟨[], 1⟩ : DbState).nextId + i, candName "b" i,
            candPath "d" "b" i,
            (fun _ => (⟨2024, 1, 1, 0, 0, 0⟩ : DateTime)) i⟩ : Backup))) ∧
    candName "b" 0 = "b" ∧
    (∀ i j, candPath "d" "b" i = candPath "d" "b" j → i = j) :=
  CreateBackup_unique_paths (fun _ => ⟨2024, 1, 1, 0, 0, 0⟩) "save" "d" "b"
    "X" [("save", "X")] ⟨[], 1⟩ 3 (by decide) (by decide) (by decide)
